import Mathlib

/-!
Verification of the log-analysis pipeline (`log_analyzer.py`).

The embedding models, from the source:
  * `LOG_PATTERN` (line 14) and `parse_log_line` (lines 82-87): the anchored
    regular expression
    `^(\S+) \S+ \S+ \[([^\]]+)\] "(\S+) (\S+) \S+" (\d+) (\S+)$`
    applied with `re.match`.  Because every `\S+` group is followed by a
    character that `\S` cannot match (a space), and the digit group is
    followed by a space, the backtracking search of the regex engine is
    deterministic at every group except the uncaptured protocol group
    `\S+"`; there, since the character after the closing quote must be a
    space and `\S` matches the quote itself, the only viable split takes
    the maximal non-whitespace run and requires its last character to be
    the quote.  The matcher below implements exactly this.  Character
    classes are modelled on their ASCII core: `\s` as the six Python ASCII
    whitespace characters and `\d` as the decimal digits 0-9.
  * `process_log_data_parallel` (lines 111-131): `mp.Pool.map` returns the
    per-line results in input order whatever the pool size; the pool is
    modelled as an arbitrary chunking of the input lines, each chunk mapped
    by a worker and the chunk results concatenated in order.  `filter(None, ...)`
    keeps the truthy results; a 5-tuple is always truthy and `None` falsy,
    so it keeps exactly the successful parses.
  * `setup_database` (lines 47-68), `bulk_load_data` (lines 70-78) and the
    query of `run_optimized_analysis` (lines 17-43): an SQLite database is
    modelled as the list of created table names, the list of created index
    names, and the rows of `Log_Entries` in insertion (rowid) order.
    `CREATE TABLE IF NOT EXISTS` / `CREATE INDEX IF NOT EXISTS` only create
    the object when the name is absent.  The aggregation query groups rows
    by `IP_Address` (first-scan order), orders by count descending and
    keeps the first 10.  `run_optimized_analysis` catches the operational
    error, prints a message, and returns `None` on every path (the Python
    function has no `return` statement).
-/

namespace LogAnalyzer

/-- Python ASCII whitespace, the characters matched by `\s` on ASCII input. -/
def pySpace (c : Char) : Bool :=
  c = ' ' || c = '\t' || c = '\n' || c = '\r' || c = '\x0b' || c = '\x0c'

/-- The character class `\S`. -/
def nonSpace (c : Char) : Bool := !pySpace c

/-- The character class `[^\]]`. -/
def notRBracket (c : Char) : Bool := c != ']'

/-- The record built at line 86 of the source from the five captured groups.
The field names follow the specification (§3); the source keeps them as a
positional 5-tuple. -/
structure ParsedRecord where
  clientAddress : String
  timestamp : String
  method : String
  path : String
  statusCode : Int
deriving DecidableEq

/-- Python `int` on a string of decimal digits. -/
def digitsToNat (l : List Char) : Nat :=
  l.foldl (fun n c => 10 * n + (c.toNat - 48)) 0

/-- Match one `\S+` group: the maximal non-whitespace run, which must be
nonempty, and the rest of the input. -/
def eatTok (l : List Char) : Option (List Char × List Char) :=
  if l.takeWhile nonSpace = [] then none
  else some (l.takeWhile nonSpace, l.dropWhile nonSpace)

/-- Match one literal character. -/
def eatChar (c : Char) (l : List Char) : Option (List Char) :=
  match l with
  | [] => none
  | c2 :: r => if c2 = c then some r else none

/-- Match the `[^\]]+` group: the maximal run of non-`]` characters. -/
def eatBracketGroup (l : List Char) : Option (List Char × List Char) :=
  if l.takeWhile notRBracket = [] then none
  else some (l.takeWhile notRBracket, l.dropWhile notRBracket)

/-- Match the `(\d+)` group: the maximal digit run, which must be nonempty. -/
def eatDigits (l : List Char) : Option (List Char × List Char) :=
  if l.takeWhile Char.isDigit = [] then none
  else some (l.takeWhile Char.isDigit, l.dropWhile Char.isDigit)

/-- The viable split of `\S+"` followed by a space: the maximal
non-whitespace run must have length at least 2 and end with `"`. -/
def protoOk (run : List Char) : Bool :=
  decide (2 ≤ run.length) && run.getLast? == some '"'

/-- Python `$` without `re.MULTILINE`: matches at the end of the string or
just before a newline that ends the string. After a `\S+` group the rest is
therefore `[]` or `['\n']`. -/
def eatLineEnd (l : List Char) : Option Unit :=
  match l with
  | [] => some ()
  | ['\n'] => some ()
  | _ => none

/-- The segment `^(\S+) \S+ \S+ \[` of `LOG_PATTERN`: the captured address
and the rest of the input after the opening bracket. -/
def matchHead (l : List Char) : Option (List Char × List Char) := do
  let p1 ← eatTok l
  let r1 ← eatChar ' ' p1.2
  let p2 ← eatTok r1
  let r2 ← eatChar ' ' p2.2
  let p3 ← eatTok r2
  let r3 ← eatChar ' ' p3.2
  let r4 ← eatChar '[' r3
  some (p1.1, r4)

/-- The segment `([^\]]+)\] "` of `LOG_PATTERN`: the captured timestamp and
the rest after the opening double quote. -/
def matchTimestamp (l : List Char) : Option (List Char × List Char) := do
  let pts ← eatBracketGroup l
  let r5 ← eatChar ']' pts.2
  let r6 ← eatChar ' ' r5
  let r7 ← eatChar '"' r6
  some (pts.1, r7)

/-- The segment `(\S+) (\S+) \S+" ` of `LOG_PATTERN`: the captured method
and path, and the rest after the closing quote and its following space.  As
the next pattern character after `\S+"` is a space, the only viable
backtracking split takes the maximal non-whitespace run and requires its
last character to be the quote. -/
def guardProto (run : List Char) : Option Unit :=
  if protoOk run then some () else none

def matchRequest (l : List Char) :
    Option (List Char × List Char × List Char) := do
  let p4 ← eatTok l
  let r8 ← eatChar ' ' p4.2
  let p5 ← eatTok r8
  let r9 ← eatChar ' ' p5.2
  let p6 ← eatTok r9
  let _ ← guardProto p6.1
  let r10 ← eatChar ' ' p6.2
  some (p4.1, p5.1, r10)

/-- The segment `(\d+) (\S+)$` of `LOG_PATTERN`: the captured status digits. -/
def matchTail (l : List Char) : Option (List Char) := do
  let p7 ← eatDigits l
  let r11 ← eatChar ' ' p7.2
  let p8 ← eatTok r11
  let _ ← eatLineEnd p8.2
  some p7.1

/-- `LOG_PATTERN.match` (source line 14, applied at line 84): on success the
five captured groups `(address, timestamp, method, path, status-digits)`. -/
def LOG_PATTERN_match (l : List Char) :
    Option (List Char × List Char × List Char × List Char × List Char) := do
  let h ← matchHead l
  let t ← matchTimestamp h.2
  let rq ← matchRequest t.2
  let st ← matchTail rq.2.2
  some (h.1, t.1, rq.1, rq.2.1, st)

/-- `parse_log_line` (source lines 82-87): on a match, the 5-tuple of the
captured groups with the status converted by `int`; otherwise `None`. -/
def parse_log_line (line : String) : Option ParsedRecord :=
  match LOG_PATTERN_match line.data with
  | some (a, ts, m, p, st) =>
      some ⟨String.mk a, String.mk ts, String.mk m, String.mk p,
            (digitsToNat st : Int)⟩
  | none => none

/-! ## The wire format

A well-formed line per §6 of the specification:
`<address> <dash-field> <dash-field> [<timestamp-text>] "<method> <path> <protocol>" <status-digits> <size-field>`. -/

/-- A `\S+` token: nonempty, no whitespace characters. -/
def Tok (l : List Char) : Prop := l ≠ [] ∧ ∀ c ∈ l, nonSpace c = true

/-- A `[^\]]+` token: nonempty, no `]` characters. -/
def TsTok (l : List Char) : Prop := l ≠ [] ∧ ∀ c ∈ l, notRBracket c = true

/-- A `\d+` token: nonempty, decimal digits only. -/
def DigitsTok (l : List Char) : Prop := l ≠ [] ∧ ∀ c ∈ l, c.isDigit = true

instance (l : List Char) : Decidable (Tok l) := by
  unfold Tok
  infer_instance

instance (l : List Char) : Decidable (TsTok l) := by
  unfold TsTok
  infer_instance

instance (l : List Char) : Decidable (DigitsTok l) := by
  unfold DigitsTok
  infer_instance

/-- Assemble a line of the wire format from its nine fields. -/
def mkLogLine (addr d1 d2 ts meth path proto status size : List Char) :
    List Char :=
  addr ++ ' ' :: (d1 ++ ' ' :: (d2 ++ ' ' :: '[' :: (ts ++ ']' :: ' ' :: '"' ::
    (meth ++ ' ' :: (path ++ ' ' :: (proto ++ '"' :: ' ' ::
      (status ++ ' ' :: size)))))))

/-- Well-formedness of the nine fields of a wire-format line. -/
def WireLine (addr d1 d2 ts meth path proto status size : List Char) : Prop :=
  Tok addr ∧ Tok d1 ∧ Tok d2 ∧ TsTok ts ∧ Tok meth ∧ Tok path ∧ Tok proto ∧
    DigitsTok status ∧ Tok size

instance (addr d1 d2 ts meth path proto status size : List Char) :
    Decidable (WireLine addr d1 d2 ts meth path proto status size) := by
  unfold WireLine
  infer_instance

/-- A character list is a wire-format line followed by an admissible line
terminator (nothing, or the single trailing newline that `readlines` keeps
and `$` tolerates). -/
def MatchesShape (l : List Char) : Prop :=
  ∃ addr d1 d2 ts meth path proto status size trail,
    WireLine addr d1 d2 ts meth path proto status size ∧
    (trail = [] ∨ trail = ['\n']) ∧
    l = mkLogLine addr d1 d2 ts meth path proto status size ++ trail

/-! ## The parallel parse coordinator

`process_log_data_parallel` (source lines 111-131) reads the lines, then runs
`pool.map(parse_log_line, log_lines)` and keeps the truthy results with
`list(filter(None, ...))`.  `multiprocessing.Pool.map` splits the input list
into contiguous chunks, hands each chunk to a worker, and returns the
per-line results concatenated in input order, whatever the pool size; the
chunking below is therefore arbitrary.  A worker result is `None` or a
nonempty tuple, and a nonempty tuple is truthy, so `filter(None, ...)` keeps
exactly the successful parses. -/

/-- The list returned by `pool.map(parse_log_line, chunks.flatten)` when the
worker pool processes the chunks independently: per-chunk results,
concatenated in order. -/
def pool_map_chunked (chunks : List (List String)) : List (Option ParsedRecord) :=
  (chunks.map (fun c => c.map parse_log_line)).flatten

/-- `process_log_data_parallel` after the file read, for a given chunking of
the lines across the worker pool. -/
def process_log_data_parallel (chunks : List (List String)) : List ParsedRecord :=
  (pool_map_chunked chunks).filterMap id

/-- The sequential reference: parse each line in order, keep the successes. -/
def sequential_parse (lines : List String) : List ParsedRecord :=
  (lines.map parse_log_line).filterMap id

/-! ## The database

A SQLite database is modelled as the set of created table names, the set of
created index names, and the rows of `Log_Entries` in insertion (rowid)
order. -/

structure DBState where
  tables : List String
  indexes : List String
  rows : List ParsedRecord
deriving DecidableEq

/-- A fresh database file: no tables, no indexes, no rows. -/
def emptyDB : DBState := ⟨[], [], []⟩

/-- `CREATE TABLE` / `CREATE TABLE IF NOT EXISTS`: an `OperationalError`
when the table exists and `IF NOT EXISTS` was not given. -/
def createTable (ifNotExists : Bool) (name : String) (db : DBState) :
    Except String DBState :=
  if name ∈ db.tables then
    if ifNotExists then .ok db
    else .error ("table " ++ name ++ " already exists")
  else .ok { db with tables := db.tables ++ [name] }

/-- `CREATE INDEX` / `CREATE INDEX IF NOT EXISTS`, likewise. -/
def createIndex (ifNotExists : Bool) (name : String) (db : DBState) :
    Except String DBState :=
  if name ∈ db.indexes then
    if ifNotExists then .ok db
    else .error ("index " ++ name ++ " already exists")
  else .ok { db with indexes := db.indexes ++ [name] }

/-- `setup_database` (source lines 47-68): create the `Log_Entries` table and
the `idx_ip` index, both with `IF NOT EXISTS`, and commit. -/
def setup_database (db : DBState) : Except String DBState :=
  match createTable true "Log_Entries" db with
  | .error e => .error e
  | .ok db1 => createIndex true "idx_ip" db1

/-- `bulk_load_data` (source lines 70-78): `executemany` appends the records
as new rows in order; it raises when the table does not exist. -/
def bulk_load_data (db : DBState) (records : List ParsedRecord) :
    Except String DBState :=
  if "Log_Entries" ∈ db.tables then .ok { db with rows := db.rows ++ records }
  else .error "no such table: Log_Entries"

/-! ## The aggregation query

`SELECT IP_Address, COUNT(IP_Address) ... GROUP BY IP_Address ORDER BY
RequestCount DESC LIMIT 10` (source lines 27-33): one output row per distinct
address with its row count, ordered by count descending, first 10 kept.  The
relative order of addresses with equal counts is unspecified by SQL; the
model fixes one such order. -/

/-- Comparison used by `ORDER BY RequestCount DESC`. -/
def countGE (p q : String × Nat) : Prop := q.2 ≤ p.2

instance : DecidableRel countGE := fun p q => Nat.decLe q.2 p.2

instance : IsTotal (String × Nat) countGE :=
  ⟨fun a b => (Nat.le_total b.2 a.2).imp id id⟩

instance : IsTrans (String × Nat) countGE :=
  ⟨fun _ _ _ hab hbc => Nat.le_trans hbc hab⟩

/-- The `IP_Address` column of the table. -/
def addressList (rows : List ParsedRecord) : List String :=
  rows.map (fun r => r.clientAddress)

/-- `GROUP BY IP_Address` with `COUNT(IP_Address)`: one `(address, count)`
pair per distinct address. -/
def groupCounts (rows : List ParsedRecord) : List (String × Nat) :=
  (addressList rows).dedup.map (fun a => (a, (addressList rows).count a))

/-- The full query result: group, order by count descending, `LIMIT 10`. -/
def topAddresses (rows : List ParsedRecord) : List (String × Nat) :=
  (List.insertionSort countGE (groupCounts rows)).take 10

/-- `cursor.execute(query)` + `fetchall`: an `OperationalError` when the
table was never created, the ranked list otherwise. -/
def executeQuery (db : DBState) : Except String (List (String × Nat)) :=
  if "Log_Entries" ∈ db.tables then .ok (topAddresses db.rows)
  else .error "no such table: Log_Entries"

/-- What `run_optimized_analysis` prints on the console. -/
inductive ConsoleReport where
  | results : List (String × Nat) → ConsoleReport
  | errorMessage : String → ConsoleReport
deriving DecidableEq

/-- `run_optimized_analysis` (source lines 17-43): on success it prints the
ranked list; on `OperationalError` it catches the exception and prints an
error message.  Either way the Python function has no `return` statement, so
the caller receives `None`: the second component is the value returned to
the caller. -/
def run_optimized_analysis (db : DBState) :
    ConsoleReport × Option (List (String × Nat)) :=
  match executeQuery db with
  | .ok top => (.results top, none)
  | .error e =>
      (.errorMessage ("Error executing analysis query: " ++ e ++
        ". Ensure the database is loaded."), none)

/-! ## Lemmas: single pattern elements on decomposed input -/

theorem takeWhile_append_sat {p : Char → Bool} {g : List Char} (c : Char)
    (r : List Char) (hg : ∀ x ∈ g, p x = true) (hc : p c = false) :
    (g ++ c :: r).takeWhile p = g ∧ (g ++ c :: r).dropWhile p = c :: r := by
  induction g with
  | nil => simp [List.takeWhile_cons, List.dropWhile_cons, hc]
  | cons a t ih =>
      have ha : p a = true := hg a (List.mem_cons_self a t)
      obtain ⟨h1, h2⟩ := ih (fun x hx => hg x (List.mem_cons_of_mem a hx))
      simp [List.takeWhile_cons, List.dropWhile_cons, ha, h1, h2]

theorem takeWhile_all_sat {p : Char → Bool} {g : List Char}
    (hg : ∀ x ∈ g, p x = true) :
    g.takeWhile p = g ∧ g.dropWhile p = [] := by
  induction g with
  | nil => simp
  | cons a t ih =>
      have ha : p a = true := hg a (List.mem_cons_self a t)
      obtain ⟨h1, h2⟩ := ih (fun x hx => hg x (List.mem_cons_of_mem a hx))
      simp [List.takeWhile_cons, List.dropWhile_cons, ha, h1, h2]

theorem mem_takeWhile_sat {p : Char → Bool} {l : List Char} {x : Char}
    (hx : x ∈ l.takeWhile p) : p x = true := by
  induction l with
  | nil => simp [List.takeWhile] at hx
  | cons a t ih =>
      rw [List.takeWhile_cons] at hx
      by_cases ha : p a = true
      · simp [ha] at hx
        rcases hx with h | h
        · rwa [h]
        · exact ih h
      · simp [Bool.eq_false_iff.mpr ha] at hx

theorem eatTok_append {g : List Char} (hne : g ≠ [])
    (hg : ∀ x ∈ g, nonSpace x = true) (c : Char) (hc : pySpace c = true)
    (r : List Char) : eatTok (g ++ c :: r) = some (g, c :: r) := by
  obtain ⟨h1, h2⟩ :=
    takeWhile_append_sat c r hg (by simp [nonSpace, hc])
  simp [eatTok, h1, h2, hne]

theorem eatTok_all {g : List Char} (hne : g ≠ [])
    (hg : ∀ x ∈ g, nonSpace x = true) : eatTok g = some (g, []) := by
  obtain ⟨h1, h2⟩ := takeWhile_all_sat hg
  simp [eatTok, h1, h2, hne]

theorem eatChar_cons (c : Char) (r : List Char) : eatChar c (c :: r) = some r := by
  simp [eatChar]

theorem eatBracketGroup_append {g : List Char} (hne : g ≠ [])
    (hg : ∀ x ∈ g, notRBracket x = true) (r : List Char) :
    eatBracketGroup (g ++ ']' :: r) = some (g, ']' :: r) := by
  obtain ⟨h1, h2⟩ := takeWhile_append_sat ']' r hg (by simp [notRBracket])
  simp [eatBracketGroup, h1, h2, hne]

theorem eatDigits_append {g : List Char} (hne : g ≠ [])
    (hg : ∀ x ∈ g, x.isDigit = true) (r : List Char) :
    eatDigits (g ++ ' ' :: r) = some (g, ' ' :: r) := by
  obtain ⟨h1, h2⟩ := takeWhile_append_sat ' ' r hg (by simp [Char.isDigit])
  simp [eatDigits, h1, h2, hne]

theorem eatTok_proto {proto : List Char}
    (hg : ∀ x ∈ proto, nonSpace x = true) (r : List Char) :
    eatTok (proto ++ '"' :: ' ' :: r) = some (proto ++ ['"'], ' ' :: r) := by
  have hshape : proto ++ '"' :: ' ' :: r = (proto ++ ['"']) ++ ' ' :: r := by
    simp
  rw [hshape]
  apply eatTok_append (by simp) ?_ ' ' rfl r
  intro x hx
  rcases List.mem_append.mp hx with h | h
  · exact hg x h
  · simp at h
    rw [h]
    rfl

theorem protoOk_concat_quote {proto : List Char} (hne : proto ≠ []) :
    protoOk (proto ++ ['"']) = true := by
  have hlen : 1 ≤ proto.length := List.length_pos.mpr hne
  simp [protoOk, List.getLast?_concat]
  omega

/-! ## Lemmas: the four pattern stages on a wire-format line -/

theorem matchHead_mk {addr d1 d2 : List Char} (rest : List Char)
    (ha : Tok addr) (h1 : Tok d1) (h2 : Tok d2) :
    matchHead (addr ++ ' ' :: (d1 ++ ' ' :: (d2 ++ ' ' :: '[' :: rest))) =
      some (addr, rest) := by
  simp [matchHead, eatTok_append ha.1 ha.2 ' ' rfl,
    eatTok_append h1.1 h1.2 ' ' rfl, eatTok_append h2.1 h2.2 ' ' rfl,
    eatChar_cons]

theorem matchTimestamp_mk {ts : List Char} (rest : List Char)
    (hts : TsTok ts) :
    matchTimestamp (ts ++ ']' :: ' ' :: '"' :: rest) = some (ts, rest) := by
  simp [matchTimestamp, eatBracketGroup_append hts.1 hts.2, eatChar_cons]

theorem matchRequest_mk {meth path proto : List Char} (rest : List Char)
    (hm : Tok meth) (hp : Tok path) (hpr : Tok proto) :
    matchRequest (meth ++ ' ' :: (path ++ ' ' ::
        (proto ++ '"' :: ' ' :: rest))) =
      some (meth, path, rest) := by
  simp [matchRequest, eatTok_append hm.1 hm.2 ' ' rfl,
    eatTok_append hp.1 hp.2 ' ' rfl, eatTok_proto hpr.2, guardProto,
    protoOk_concat_quote hpr.1, eatChar_cons]

theorem matchTail_mk {status size trail : List Char}
    (hst : DigitsTok status) (hsz : Tok size)
    (htrail : trail = [] ∨ trail = ['\n']) :
    matchTail (status ++ ' ' :: (size ++ trail)) = some status := by
  rcases htrail with h | h <;> subst h
  · simp [matchTail, eatDigits_append hst.1 hst.2, eatChar_cons,
      eatTok_all hsz.1 hsz.2, eatLineEnd]
  · have : eatTok (size ++ ['\n']) = some (size, ['\n']) :=
      eatTok_append hsz.1 hsz.2 '\n' rfl []
    simp [matchTail, eatDigits_append hst.1 hst.2, eatChar_cons, this,
      eatLineEnd]

/-- The central forward lemma: `LOG_PATTERN` matches every wire-format line
(with or without a trailing newline) and captures its five groups verbatim. -/
theorem LOG_PATTERN_match_mk {addr d1 d2 ts meth path proto status size :
    List Char} (trail : List Char)
    (h : WireLine addr d1 d2 ts meth path proto status size)
    (htrail : trail = [] ∨ trail = ['\n']) :
    LOG_PATTERN_match
        (mkLogLine addr d1 d2 ts meth path proto status size ++ trail) =
      some (addr, ts, meth, path, status) := by
  obtain ⟨ha, h1, h2, hts, hm, hp, hpr, hst, hsz⟩ := h
  have hshape :
      mkLogLine addr d1 d2 ts meth path proto status size ++ trail =
        addr ++ ' ' :: (d1 ++ ' ' :: (d2 ++ ' ' :: '[' ::
          (ts ++ ']' :: ' ' :: '"' :: (meth ++ ' ' :: (path ++ ' ' ::
            (proto ++ '"' :: ' ' :: (status ++ ' ' :: (size ++ trail)))))))) := by
    simp [mkLogLine]
  rw [hshape]
  simp [LOG_PATTERN_match, matchHead_mk _ ha h1 h2, matchTimestamp_mk _ hts,
    matchRequest_mk _ hm hp hpr, matchTail_mk hst hsz htrail]

/-! ## Lemmas: inverting a successful match -/

theorem eatTok_inv {l g r : List Char} (h : eatTok l = some (g, r)) :
    l = g ++ r ∧ g ≠ [] ∧ ∀ x ∈ g, nonSpace x = true := by
  unfold eatTok at h
  split at h
  · exact absurd h (by simp)
  · rename_i hne
    rw [Option.some.injEq, Prod.mk.injEq] at h
    obtain ⟨hg, hr⟩ := h
    subst hg
    subst hr
    exact ⟨(List.takeWhile_append_dropWhile _ _).symm, hne,
      fun x hx => mem_takeWhile_sat hx⟩

theorem eatChar_inv {c : Char} {l r : List Char} (h : eatChar c l = some r) :
    l = c :: r := by
  cases l with
  | nil => exact absurd h (by simp [eatChar])
  | cons c2 r2 =>
      have h2 : (if c2 = c then some r2 else none) = some r := h
      split at h2
      · rename_i hc
        rw [Option.some.injEq] at h2
        rw [hc, h2]
      · exact absurd h2 (by simp)

theorem eatBracketGroup_inv {l g r : List Char}
    (h : eatBracketGroup l = some (g, r)) :
    l = g ++ r ∧ g ≠ [] ∧ ∀ x ∈ g, notRBracket x = true := by
  unfold eatBracketGroup at h
  split at h
  · exact absurd h (by simp)
  · rename_i hne
    rw [Option.some.injEq, Prod.mk.injEq] at h
    obtain ⟨hg, hr⟩ := h
    subst hg
    subst hr
    exact ⟨(List.takeWhile_append_dropWhile _ _).symm, hne,
      fun x hx => mem_takeWhile_sat hx⟩

theorem eatDigits_inv {l g r : List Char} (h : eatDigits l = some (g, r)) :
    l = g ++ r ∧ g ≠ [] ∧ ∀ x ∈ g, x.isDigit = true := by
  unfold eatDigits at h
  split at h
  · exact absurd h (by simp)
  · rename_i hne
    rw [Option.some.injEq, Prod.mk.injEq] at h
    obtain ⟨hg, hr⟩ := h
    subst hg
    subst hr
    exact ⟨(List.takeWhile_append_dropWhile _ _).symm, hne,
      fun x hx => mem_takeWhile_sat hx⟩

theorem protoOk_inv {run : List Char} (h : protoOk run = true) :
    run.dropLast ≠ [] ∧ run = run.dropLast ++ ['"'] := by
  unfold protoOk at h
  rw [Bool.and_eq_true, decide_eq_true_eq, beq_iff_eq] at h
  obtain ⟨hlen, hlast⟩ := h
  have hne : run ≠ [] := by
    intro hnil
    rw [hnil] at hlen
    simp at hlen
  have hget : run.getLast hne = '"' := by
    have := List.getLast?_eq_getLast run hne
    rw [this, Option.some.injEq] at hlast
    exact hlast
  constructor
  · have hdl : run.dropLast.length = run.length - 1 := List.length_dropLast run
    intro hnil
    rw [hnil] at hdl
    simp at hdl
    omega
  · conv_lhs => rw [← List.dropLast_append_getLast hne]
    rw [hget]

theorem eatLineEnd_inv {l : List Char} (h : eatLineEnd l = some ()) :
    l = [] ∨ l = ['\n'] := by
  unfold eatLineEnd at h
  split at h
  · exact Or.inl rfl
  · exact Or.inr rfl
  · exact absurd h (by simp)

theorem guardProto_inv {run : List Char} {u : Unit}
    (h : guardProto run = some u) : protoOk run = true := by
  unfold guardProto at h
  split at h
  · assumption
  · exact absurd h (by simp)

theorem matchHead_inv {l addr rest : List Char}
    (h : matchHead l = some (addr, rest)) :
    ∃ d1 d2, Tok addr ∧ Tok d1 ∧ Tok d2 ∧
      l = addr ++ ' ' :: (d1 ++ ' ' :: (d2 ++ ' ' :: '[' :: rest)) := by
  simp only [matchHead, Option.bind_eq_bind, Option.bind_eq_some] at h
  obtain ⟨⟨g1, s1⟩, hp1, r1, hr1, ⟨g2, s2⟩, hp2, r2, hr2, ⟨g3, s3⟩, hp3,
    r3, hr3, r4, hr4, hfin⟩ := h
  dsimp only at hr1 hr2 hr3 hfin
  rw [Option.some.injEq, Prod.mk.injEq] at hfin
  obtain ⟨he1, he2⟩ := hfin
  obtain ⟨hl, hne1, hsat1⟩ := eatTok_inv hp1
  have hs1 : s1 = ' ' :: r1 := eatChar_inv hr1
  obtain ⟨hr1e, hne2, hsat2⟩ := eatTok_inv hp2
  have hs2 : s2 = ' ' :: r2 := eatChar_inv hr2
  obtain ⟨hr2e, hne3, hsat3⟩ := eatTok_inv hp3
  have hs3 : s3 = ' ' :: r3 := eatChar_inv hr3
  have hs4 : r3 = '[' :: r4 := eatChar_inv hr4
  subst he1 he2
  refine ⟨g2, g3, ⟨hne1, hsat1⟩, ⟨hne2, hsat2⟩, ⟨hne3, hsat3⟩, ?_⟩
  rw [hl, hs1, hr1e, hs2, hr2e, hs3, hs4]

theorem matchTimestamp_inv {l ts rest : List Char}
    (h : matchTimestamp l = some (ts, rest)) :
    TsTok ts ∧ l = ts ++ ']' :: ' ' :: '"' :: rest := by
  simp only [matchTimestamp, Option.bind_eq_bind, Option.bind_eq_some] at h
  obtain ⟨⟨g, s⟩, hpts, r5, hr5, r6, hr6, r7, hr7, hfin⟩ := h
  dsimp only at hr5 hfin
  rw [Option.some.injEq, Prod.mk.injEq] at hfin
  obtain ⟨he1, he2⟩ := hfin
  obtain ⟨hl, hne, hsat⟩ := eatBracketGroup_inv hpts
  have hs1 : s = ']' :: r5 := eatChar_inv hr5
  have hs2 : r5 = ' ' :: r6 := eatChar_inv hr6
  have hs3 : r6 = '"' :: r7 := eatChar_inv hr7
  subst he1 he2
  exact ⟨⟨hne, hsat⟩, by rw [hl, hs1, hs2, hs3]⟩

theorem matchRequest_inv {l meth path rest : List Char}
    (h : matchRequest l = some (meth, path, rest)) :
    ∃ proto, Tok meth ∧ Tok path ∧ Tok proto ∧
      l = meth ++ ' ' :: (path ++ ' ' :: (proto ++ '"' :: ' ' :: rest)) := by
  simp only [matchRequest, Option.bind_eq_bind, Option.bind_eq_some] at h
  obtain ⟨⟨g4, s4⟩, hp4, r8, hr8, ⟨g5, s5⟩, hp5, r9, hr9, ⟨g6, s6⟩, hp6,
    u, hu, r10, hr10, hfin⟩ := h
  dsimp only at hr8 hr9 hu hr10 hfin
  rw [Option.some.injEq, Prod.mk.injEq] at hfin
  obtain ⟨he1, hfin2⟩ := hfin
  rw [Prod.mk.injEq] at hfin2
  obtain ⟨he2, he3⟩ := hfin2
  obtain ⟨hl, hne4, hsat4⟩ := eatTok_inv hp4
  have hs4 : s4 = ' ' :: r8 := eatChar_inv hr8
  obtain ⟨hr8e, hne5, hsat5⟩ := eatTok_inv hp5
  have hs5 : s5 = ' ' :: r9 := eatChar_inv hr9
  obtain ⟨hr9e, hne6, hsat6⟩ := eatTok_inv hp6
  have hs6 : s6 = ' ' :: r10 := eatChar_inv hr10
  obtain ⟨hdne, hdec⟩ := protoOk_inv (guardProto_inv hu)
  subst he1 he2 he3
  refine ⟨g6.dropLast, ⟨hne4, hsat4⟩, ⟨hne5, hsat5⟩, ⟨hdne, ?_⟩, ?_⟩
  · intro x hx
    exact hsat6 x ((List.dropLast_sublist g6).subset hx)
  · rw [hl, hs4, hr8e, hs5, hr9e, hs6]
    have hq : g6 ++ ' ' :: r10 = g6.dropLast ++ '"' :: ' ' :: r10 := by
      conv_lhs => rw [hdec]
      simp
    rw [hq]

theorem matchTail_inv {l status : List Char} (h : matchTail l = some status) :
    ∃ size trail, DigitsTok status ∧ Tok size ∧
      (trail = [] ∨ trail = ['\n']) ∧
      l = status ++ ' ' :: (size ++ trail) := by
  simp only [matchTail, Option.bind_eq_bind, Option.bind_eq_some] at h
  obtain ⟨⟨g7, s7⟩, hp7, r11, hr11, ⟨g8, s8⟩, hp8, u, hu, hfin⟩ := h
  dsimp only at hr11 hu hfin
  rw [Option.some.injEq] at hfin
  obtain ⟨hl, hne7, hsat7⟩ := eatDigits_inv hp7
  have hs7 : s7 = ' ' :: r11 := eatChar_inv hr11
  obtain ⟨hr11e, hne8, hsat8⟩ := eatTok_inv hp8
  have htr : s8 = [] ∨ s8 = ['\n'] := eatLineEnd_inv (by rw [hu])
  subst hfin
  exact ⟨g8, s8, ⟨hne7, hsat7⟩, ⟨hne8, hsat8⟩, htr,
    by rw [hl, hs7, hr11e]⟩

/-- The central inversion lemma: every line `LOG_PATTERN` matches decomposes
into a wire-format line, the captured groups being its five relevant fields
verbatim. -/
theorem LOG_PATTERN_match_inv {l g1 g2 g3 g4 g5 : List Char}
    (h : LOG_PATTERN_match l = some (g1, g2, g3, g4, g5)) :
    ∃ d1 d2 proto size trail,
      WireLine g1 d1 d2 g2 g3 g4 proto g5 size ∧
      (trail = [] ∨ trail = ['\n']) ∧
      l = mkLogLine g1 d1 d2 g2 g3 g4 proto g5 size ++ trail := by
  simp only [LOG_PATTERN_match, Option.bind_eq_bind, Option.bind_eq_some] at h
  obtain ⟨⟨a, rest1⟩, hh, ⟨ts, rest2⟩, ht, ⟨m, p, rest3⟩, hrq, st, hst,
    hfin⟩ := h
  dsimp only at ht hrq hst hfin
  rw [Option.some.injEq, Prod.mk.injEq] at hfin
  obtain ⟨hg1, hfin⟩ := hfin
  rw [Prod.mk.injEq] at hfin
  obtain ⟨hg2, hfin⟩ := hfin
  rw [Prod.mk.injEq] at hfin
  obtain ⟨hg3, hfin⟩ := hfin
  rw [Prod.mk.injEq] at hfin
  obtain ⟨hg4, hg5⟩ := hfin
  subst hg1 hg2 hg3 hg4 hg5
  obtain ⟨d1, d2, hta, htd1, htd2, hl1⟩ := matchHead_inv hh
  obtain ⟨htts, hl2⟩ := matchTimestamp_inv ht
  obtain ⟨proto, htm, htp, htpr, hl3⟩ := matchRequest_inv hrq
  obtain ⟨size, trail, hdg, htsz, htr, hl4⟩ := matchTail_inv hst
  refine ⟨d1, d2, proto, size, trail,
    ⟨hta, htd1, htd2, htts, htm, htp, htpr, hdg, htsz⟩, htr, ?_⟩
  rw [hl1, hl2, hl3, hl4]
  simp [mkLogLine]

/-! ## Lemmas: `parse_log_line` -/

/-- Forward direction at the `parse_log_line` level: a wire-format line
parses to the record of its five captured fields, status converted. -/
theorem parse_log_line_mk {addr d1 d2 ts meth path proto status size :
    List Char} (h : WireLine addr d1 d2 ts meth path proto status size) :
    parse_log_line ⟨mkLogLine addr d1 d2 ts meth path proto status size⟩ =
      some ⟨⟨addr⟩, ⟨ts⟩, ⟨meth⟩, ⟨path⟩, (digitsToNat status : Int)⟩ := by
  have hm := LOG_PATTERN_match_mk [] h (Or.inl rfl)
  rw [List.append_nil] at hm
  unfold parse_log_line
  rw [show (String.mk (mkLogLine addr d1 d2 ts meth path proto status size)).data
      = mkLogLine addr d1 d2 ts meth path proto status size from rfl, hm]

/-- Inversion at the `parse_log_line` level: a successful parse comes from a
successful pattern match and the record is built from the groups. -/
theorem parse_log_line_some_inv {s : String} {r : ParsedRecord}
    (h : parse_log_line s = some r) :
    ∃ g1 g2 g3 g4 g5,
      LOG_PATTERN_match s.data = some (g1, g2, g3, g4, g5) ∧
      r = ⟨⟨g1⟩, ⟨g2⟩, ⟨g3⟩, ⟨g4⟩, (digitsToNat g5 : Int)⟩ := by
  unfold parse_log_line at h
  split at h
  · rename_i a ts m p st heq
    rw [Option.some.injEq] at h
    exact ⟨a, ts, m, p, st, heq, h.symm⟩
  · exact absurd h (by simp)

/-! ## Lemmas: counting -/

theorem sum_map_add_nat {α : Type} (f g : α → Nat) (ds : List α) :
    (ds.map (fun a => f a + g a)).sum = (ds.map f).sum + (ds.map g).sum := by
  induction ds with
  | nil => simp
  | cons a t ih =>
      simp only [List.map_cons, List.sum_cons, ih]
      omega

theorem sum_map_indicator {α : Type} [DecidableEq α] (x : α) (ds : List α) :
    (ds.map (fun a => if x = a then 1 else 0)).sum = ds.count x := by
  induction ds with
  | nil => simp
  | cons a t ih =>
      rw [List.map_cons, List.sum_cons, ih, List.count_cons]
      by_cases h : x = a
      · simp [h]
        omega
      · have h2 : ¬ a = x := fun he => h he.symm
        simp [h, h2]

/-- Summing the per-key multiplicities over any duplicate-free list of keys
covering a list gives the length of the list. -/
theorem sum_map_count {α : Type} [DecidableEq α] (ds : List α) (hnd : ds.Nodup) :
    ∀ l : List α, (∀ y ∈ l, y ∈ ds) →
      (ds.map (fun a => l.count a)).sum = l.length := by
  intro l
  induction l with
  | nil => simp
  | cons x t ih =>
      intro hsub
      have hx : x ∈ ds := hsub x (List.mem_cons_self x t)
      have ht : ∀ y ∈ t, y ∈ ds :=
        fun y hy => hsub y (List.mem_cons_of_mem x hy)
      have hcongr : ds.map (fun a => (x :: t).count a) =
          ds.map (fun a => t.count a + if x = a then 1 else 0) := by
        apply List.map_congr_left
        intro a _
        rw [List.count_cons]
        by_cases h : x = a
        · simp [h]
        · have h2 : ¬ x = a := h
          simp [h, h2]
      rw [hcongr, sum_map_add_nat, ih ht, sum_map_indicator,
        List.count_eq_one_of_mem hnd hx, List.length_cons]

/-! ## Lemmas: the aggregation query -/

theorem topAddresses_length_le (rows : List ParsedRecord) :
    (topAddresses rows).length ≤ 10 := by
  unfold topAddresses
  rw [List.length_take]
  exact Nat.min_le_left _ _

theorem topAddresses_sorted (rows : List ParsedRecord) :
    List.Sorted countGE (topAddresses rows) :=
  List.Pairwise.sublist (List.take_sublist _ _)
    (List.sorted_insertionSort countGE (groupCounts rows))

theorem mem_groupCounts_count {rows : List ParsedRecord} {pq : String × Nat}
    (h : pq ∈ groupCounts rows) : pq.2 = (addressList rows).count pq.1 := by
  unfold groupCounts at h
  obtain ⟨a, _, hpq⟩ := List.mem_map.mp h
  rw [← hpq]

theorem mem_topAddresses_count {rows : List ParsedRecord} {pq : String × Nat}
    (h : pq ∈ topAddresses rows) :
    pq.2 = (addressList rows).count pq.1 := by
  unfold topAddresses at h
  have h2 := List.take_subset _ _ h
  rw [List.mem_insertionSort] at h2
  exact mem_groupCounts_count h2

theorem groupCounts_sum (rows : List ParsedRecord) :
    ((groupCounts rows).map (fun pq => pq.2)).sum = rows.length := by
  unfold groupCounts
  rw [List.map_map]
  have hcov : ∀ y ∈ addressList rows, y ∈ (addressList rows).dedup :=
    fun y hy => List.mem_dedup.mpr hy
  have := sum_map_count (addressList rows).dedup
    (List.nodup_dedup (addressList rows)) (addressList rows) hcov
  rw [show ((fun pq : String × Nat => pq.2) ∘ fun a =>
      (a, (addressList rows).count a)) =
      fun a => (addressList rows).count a from rfl, this]
  unfold addressList
  rw [List.length_map]

theorem topAddresses_sum_of_le10 {rows : List ParsedRecord}
    (h : (addressList rows).dedup.length ≤ 10) :
    ((topAddresses rows).map (fun pq => pq.2)).sum = rows.length := by
  unfold topAddresses
  have hperm := List.perm_insertionSort countGE (groupCounts rows)
  have hlen : (List.insertionSort countGE (groupCounts rows)).length ≤ 10 := by
    rw [hperm.length_eq]
    unfold groupCounts
    rw [List.length_map]
    exact h
  rw [List.take_of_length_le hlen]
  rw [(hperm.map (fun pq : String × Nat => pq.2)).sum_eq]
  exact groupCounts_sum rows

/-! ## Lemmas: schema setup -/

/-- Characterization of `setup_database`: it always succeeds, appends the
table and the index exactly when absent, and leaves the rows alone. -/
theorem setup_database_spec (db : DBState) :
    setup_database db = .ok
      { tables :=
          if "Log_Entries" ∈ db.tables then db.tables
          else db.tables ++ ["Log_Entries"],
        indexes :=
          if "idx_ip" ∈ db.indexes then db.indexes
          else db.indexes ++ ["idx_ip"],
        rows := db.rows } := by
  by_cases ht : "Log_Entries" ∈ db.tables <;>
    by_cases hi : "idx_ip" ∈ db.indexes <;>
    simp [setup_database, createTable, createIndex, ht, hi]

theorem setup_database_stable {db db' : DBState}
    (h : setup_database db = .ok db') : setup_database db' = .ok db' := by
  have hs := setup_database_spec db
  rw [h, Except.ok.injEq] at hs
  have ht : "Log_Entries" ∈ db'.tables := by
    rw [hs]
    by_cases htm : "Log_Entries" ∈ db.tables <;> simp [htm]
  have hi : "idx_ip" ∈ db'.indexes := by
    rw [hs]
    by_cases him : "idx_ip" ∈ db.indexes <;> simp [him]
  have hs2 := setup_database_spec db'
  rw [if_pos ht, if_pos hi] at hs2
  exact hs2

theorem setup_database_count {db db' : DBState}
    (h : setup_database db = .ok db') :
    db'.tables.count "Log_Entries" =
      max (db.tables.count "Log_Entries") 1 ∧
    db'.indexes.count "idx_ip" = max (db.indexes.count "idx_ip") 1 := by
  have hs := setup_database_spec db
  rw [h, Except.ok.injEq] at hs
  rw [hs]
  constructor
  · by_cases ht : "Log_Entries" ∈ db.tables
    · have hpos : 0 < db.tables.count "Log_Entries" :=
        List.count_pos_iff.mpr ht
      simp [ht]
      try omega
    · have hz : db.tables.count "Log_Entries" = 0 :=
        List.count_eq_zero.mpr ht
      simp [ht, hz, List.count_singleton_self]
  · by_cases hi : "idx_ip" ∈ db.indexes
    · have hpos : 0 < db.indexes.count "idx_ip" :=
        List.count_pos_iff.mpr hi
      simp [hi]
      try omega
    · have hz : db.indexes.count "idx_ip" = 0 :=
        List.count_eq_zero.mpr hi
      simp [hi, hz, List.count_singleton_self]

/-! ## Lemmas: bulk load and query execution -/

theorem bulk_load_data_ok {db : DBState} (h : "Log_Entries" ∈ db.tables)
    (records : List ParsedRecord) :
    bulk_load_data db records =
      Except.ok ⟨db.tables, db.indexes, db.rows ++ records⟩ := by
  unfold bulk_load_data
  rw [if_pos h]

theorem executeQuery_ok {db : DBState} (h : "Log_Entries" ∈ db.tables) :
    executeQuery db = Except.ok (topAddresses db.rows) := by
  unfold executeQuery
  rw [if_pos h]

/-! ## Concrete inputs used by the claims -/

def exampleLine : String :=
  "10.0.0.1 - - [01/Jan/2024:00:00:00 +0000] \"POST /api/data HTTP/1.1\" 404 512"

def exampleRecord : ParsedRecord :=
  ⟨"10.0.0.1", "01/Jan/2024:00:00:00 +0000", "POST", "/api/data", 404⟩

def missingBracketsLine : String :=
  "10.0.0.1 - - 01/Jan/2024:00:00:00 +0000 \"POST /api/data HTTP/1.1\" 404 512"

def missingQuotesLine : String :=
  "10.0.0.1 - - [01/Jan/2024:00:00:00 +0000] POST /api/data HTTP/1.1 404 512"

def nonNumericStatusLine : String :=
  "10.0.0.1 - - [01/Jan/2024:00:00:00 +0000] \"POST /api/data HTTP/1.1\" abc 512"

def wrongFieldCountLine : String :=
  "10.0.0.1 - [01/Jan/2024:00:00:00 +0000] \"POST /api/data HTTP/1.1\" 404 512"

def negStatusLine : String :=
  "10.0.0.1 - - [01/Jan/2024:00:00:00 +0000] \"POST /api/data HTTP/1.1\" -404 512"

def hugeStatusLine : String :=
  "10.0.0.1 - - [01/Jan/2024:00:00:00 +0000] \"POST /api/data HTTP/1.1\" 123456789012345678901234567890 512"

/-- The state of the database right after `setup_database` on a fresh file. -/
def setupEmptyDB : DBState := ⟨["Log_Entries"], ["idx_ip"], []⟩

def mkRec (a : String) : ParsedRecord :=
  ⟨a, "01/Jan/2024:00:00:00 +0000", "GET", "/home", 200⟩

/-- Eleven records with eleven distinct client addresses. -/
def cexRecords : List ParsedRecord :=
  ["a1", "a2", "a3", "a4", "a5", "a6", "a7", "a8", "a9", "b1", "b2"].map mkRec

def c2chunks : List (List String) :=
  [[exampleLine], ["not a log line", exampleLine]]

def c2lines : List String := [exampleLine, "not a log line", exampleLine]

def c4recs : List ParsedRecord := [mkRec "a1", mkRec "a1", mkRec "a2"]

/-! ## The claims -/

/-- Claim C1: every line of the wire format parses to the record of its five
captured groups verbatim, with the status converted from decimal text to an
integer; the given example line parses to the given record; and parsing is
deterministic, so parsing the same line twice yields equal records. -/
theorem c1_parse_wire_format :
    (∀ addr d1 d2 ts meth path proto status size : List Char,
        WireLine addr d1 d2 ts meth path proto status size →
        parse_log_line ⟨mkLogLine addr d1 d2 ts meth path proto status size⟩ =
          some ⟨⟨addr⟩, ⟨ts⟩, ⟨meth⟩, ⟨path⟩, (digitsToNat status : Int)⟩) ∧
    parse_log_line exampleLine = some exampleRecord ∧
    (∀ s : String, parse_log_line s = parse_log_line s) := by
  refine ⟨?_, by decide, fun s => rfl⟩
  intro addr d1 d2 ts meth path proto status size h
  exact parse_log_line_mk h

theorem c1_parse_wire_format_witness :
    parse_log_line ⟨mkLogLine "10.0.0.1".data "-".data "-".data
        "01/Jan/2024:00:00:00 +0000".data "POST".data "/api/data".data
        "HTTP/1.1".data "404".data "512".data⟩ =
      some ⟨"10.0.0.1", "01/Jan/2024:00:00:00 +0000", "POST", "/api/data",
        (digitsToNat "404".data : Int)⟩ :=
  c1_parse_wire_format.1 _ _ _ _ _ _ _ _ _ (by decide)

/-- Claim C2: for any chunking of the input lines across the worker pool,
the parallel coordinator returns exactly the records that sequential parsing
returns (in particular the same multiset), and their number is exactly the
number K of lines that parse. -/
theorem c2_parallel_complete (chunks : List (List String))
    (lines : List String) (h : chunks.flatten = lines) :
    process_log_data_parallel chunks = sequential_parse lines ∧
    (process_log_data_parallel chunks).length =
      lines.countP (fun s => (parse_log_line s).isSome) := by
  subst h
  have h1 : process_log_data_parallel chunks =
      sequential_parse chunks.flatten := by
    unfold process_log_data_parallel pool_map_chunked sequential_parse
    rw [← List.map_flatten]
  refine ⟨h1, ?_⟩
  rw [h1]
  unfold sequential_parse
  rw [List.length_filterMap_eq_countP, List.countP_map]
  rfl

theorem c2_parallel_complete_witness :
    process_log_data_parallel c2chunks = sequential_parse c2lines ∧
    (process_log_data_parallel c2chunks).length =
      c2lines.countP (fun s => (parse_log_line s).isSome) :=
  c2_parallel_complete c2chunks c2lines (by decide)

/-- Claim C3 as stated is false: a negative status such as `-404` is numeric
text, all other fields are well-formed, yet the line does not parse, because
the status group `(\d+)` matches only digit characters and not a sign. -/
theorem c3_negative_status_counterexample :
    parse_log_line negStatusLine = none := by decide

/-- Claim C3, amended: a status of arbitrarily many decimal digits (hence an
arbitrarily large non-negative integer) still parses, to a record carrying
exactly that integer; negative statuses, whose text starts with `-`, do not
match the pattern and yield no record. -/
theorem c3_huge_status_parses :
    (∀ status : List Char, status ≠ [] → (∀ c ∈ status, c.isDigit = true) →
      parse_log_line ⟨mkLogLine "10.0.0.1".data "-".data "-".data
          "01/Jan/2024:00:00:00 +0000".data "POST".data "/api/data".data
          "HTTP/1.1".data status "512".data⟩ =
        some ⟨"10.0.0.1", "01/Jan/2024:00:00:00 +0000", "POST", "/api/data",
          (digitsToNat status : Int)⟩) ∧
    parse_log_line hugeStatusLine =
      some ⟨"10.0.0.1", "01/Jan/2024:00:00:00 +0000", "POST", "/api/data",
        123456789012345678901234567890⟩ := by
  constructor
  · intro status hne hdig
    exact parse_log_line_mk ⟨by decide, by decide, by decide, by decide,
      by decide, by decide, by decide, ⟨hne, hdig⟩, by decide⟩
  · decide

theorem c3_huge_status_parses_witness :
    parse_log_line ⟨mkLogLine "10.0.0.1".data "-".data "-".data
        "01/Jan/2024:00:00:00 +0000".data "POST".data "/api/data".data
        "HTTP/1.1".data "99999999999999999999".data "512".data⟩ =
      some ⟨"10.0.0.1", "01/Jan/2024:00:00:00 +0000", "POST", "/api/data",
        (digitsToNat "99999999999999999999".data : Int)⟩ :=
  c3_huge_status_parses.1 "99999999999999999999".data (by decide) (by decide)

/-- Claim C4 as stated is false: with eleven records on eleven distinct
addresses, loading them into a freshly set-up store and aggregating yields
counts summing to 10, not 11, because of the `LIMIT 10` in the query. -/
theorem c4_sum_counterexample :
    setup_database emptyDB = Except.ok setupEmptyDB ∧
    bulk_load_data setupEmptyDB cexRecords =
      Except.ok ⟨["Log_Entries"], ["idx_ip"], cexRecords⟩ ∧
    executeQuery ⟨["Log_Entries"], ["idx_ip"], cexRecords⟩ =
      Except.ok (topAddresses cexRecords) ∧
    ((topAddresses cexRecords).map (fun pq => pq.2)).sum = 10 ∧
    cexRecords.length = 11 :=
  ⟨rfl, rfl, rfl, by decide, by decide⟩

/-- Claim C4, amended: when the loaded records span at most 10 distinct
client addresses (so that `LIMIT 10` keeps every group), bulk-loading M
records into a freshly set-up store and aggregating yields per-group counts
summing to M. -/
theorem c4_sum_eq_length (records : List ParsedRecord)
    (hd : (addressList records).dedup.length ≤ 10) :
    ∀ db0 db1 out, setup_database emptyDB = Except.ok db0 →
      bulk_load_data db0 records = Except.ok db1 →
      executeQuery db1 = Except.ok out →
      (out.map (fun pq => pq.2)).sum = records.length := by
  intro db0 db1 out h0 h1 h2
  have hx : setup_database emptyDB = Except.ok setupEmptyDB := rfl
  rw [hx, Except.ok.injEq] at h0
  subst h0
  rw [bulk_load_data_ok (by decide), Except.ok.injEq] at h1
  subst h1
  have hmem2 : "Log_Entries" ∈ (DBState.mk setupEmptyDB.tables
      setupEmptyDB.indexes (setupEmptyDB.rows ++ records)).tables := by
    show "Log_Entries" ∈ setupEmptyDB.tables
    decide
  have hq : executeQuery (DBState.mk setupEmptyDB.tables
        setupEmptyDB.indexes (setupEmptyDB.rows ++ records)) =
      Except.ok (topAddresses (setupEmptyDB.rows ++ records)) :=
    executeQuery_ok hmem2
  rw [hq, Except.ok.injEq] at h2
  subst h2
  show ((topAddresses (setupEmptyDB.rows ++ records)).map
    (fun pq => pq.2)).sum = records.length
  rw [show setupEmptyDB.rows ++ records = records from List.nil_append records]
  exact topAddresses_sum_of_le10 hd

theorem c4_sum_eq_length_witness :
    ((topAddresses c4recs).map (fun pq => pq.2)).sum = c4recs.length :=
  c4_sum_eq_length c4recs (by decide) setupEmptyDB
    ⟨["Log_Entries"], ["idx_ip"], c4recs⟩ (topAddresses c4recs)
    rfl rfl rfl

/-- Claim C5: a record is only ever produced from a line of the recognized
shape (a wire-format line, possibly with the trailing newline kept by
`readlines`), and the representative malformed lines, the empty line
included, all produce no record. The parser is a total function, so no
malformed line raises an error. -/
theorem c5_malformed_rejected :
    (∀ (s : String) (r : ParsedRecord),
        parse_log_line s = some r → MatchesShape s.data) ∧
    parse_log_line "" = none ∧
    parse_log_line missingBracketsLine = none ∧
    parse_log_line missingQuotesLine = none ∧
    parse_log_line nonNumericStatusLine = none ∧
    parse_log_line wrongFieldCountLine = none := by
  refine ⟨?_, by decide, by decide, by decide, by decide, by decide⟩
  intro s r h
  obtain ⟨g1, g2, g3, g4, g5, hm, _⟩ := parse_log_line_some_inv h
  obtain ⟨d1, d2, proto, size, trail, hw, htr, hl⟩ := LOG_PATTERN_match_inv hm
  exact ⟨g1, d1, d2, g2, g3, g4, proto, g5, size, trail, hw, htr, hl⟩

theorem c5_malformed_rejected_witness : MatchesShape exampleLine.data :=
  c5_malformed_rejected.1 exampleLine exampleRecord (by decide)

/-- Claim C6: for every table state, the aggregation result has length at
most 10, is sorted by request count descending, each returned pair carries
the exact number of rows with that client address, and on a set-up store
whose table is empty the query returns the empty list rather than an error. -/
theorem c6_query_shape (rows : List ParsedRecord) :
    (topAddresses rows).length ≤ 10 ∧
    List.Sorted countGE (topAddresses rows) ∧
    (∀ pq ∈ topAddresses rows, pq.2 = (addressList rows).count pq.1) ∧
    (∀ db : DBState, "Log_Entries" ∈ db.tables → db.rows = [] →
      executeQuery db = Except.ok []) := by
  refine ⟨topAddresses_length_le rows, topAddresses_sorted rows,
    fun pq hpq => mem_topAddresses_count hpq, ?_⟩
  intro db hmem hrows
  unfold executeQuery
  rw [if_pos hmem, hrows]
  rfl

theorem c6_query_shape_witness :
    (⟨"a1", 2⟩ : String × Nat).2 = (addressList c4recs).count "a1" ∧
    executeQuery setupEmptyDB = Except.ok [] :=
  ⟨(c6_query_shape c4recs).2.2.1 ⟨"a1", 2⟩ (by decide),
    (c6_query_shape c4recs).2.2.2 setupEmptyDB (by decide) rfl⟩

/-- Claim C7: schema setup never errors and is idempotent: a second run on a
store where the table and index already exist returns the same state and
leaves exactly one `Log_Entries` table and one `idx_ip` index, duplicating
neither. -/
theorem c7_setup_idempotent :
    (∀ db db' : DBState, setup_database db = Except.ok db' →
      setup_database db' = Except.ok db' ∧
      db'.tables.count "Log_Entries" =
        max (db.tables.count "Log_Entries") 1 ∧
      db'.indexes.count "idx_ip" = max (db.indexes.count "idx_ip") 1) ∧
    setup_database emptyDB = Except.ok setupEmptyDB := by
  refine ⟨?_, rfl⟩
  intro db db' h
  exact ⟨setup_database_stable h, setup_database_count h⟩

theorem c7_setup_idempotent_witness :
    setup_database setupEmptyDB = Except.ok setupEmptyDB ∧
    setupEmptyDB.tables.count "Log_Entries" =
      max (emptyDB.tables.count "Log_Entries") 1 :=
  ⟨(c7_setup_idempotent.1 emptyDB setupEmptyDB rfl).1,
    (c7_setup_idempotent.1 emptyDB setupEmptyDB rfl).2.1⟩

/-- Claim C8 as stated is false: `run_optimized_analysis` catches the
operational error of the missing table and returns `None` — exactly what it
returns on a set-up store with an empty table — so the caller receives
identical values in the two situations and cannot distinguish them; only the
console output differs. -/
theorem c8_caller_counterexample :
    "Log_Entries" ∉ emptyDB.tables ∧
    "Log_Entries" ∈ setupEmptyDB.tables ∧ setupEmptyDB.rows = [] ∧
    (run_optimized_analysis emptyDB).2 = none ∧
    (run_optimized_analysis setupEmptyDB).2 = none ∧
    (run_optimized_analysis emptyDB).2 = (run_optimized_analysis setupEmptyDB).2 ∧
    (run_optimized_analysis emptyDB).1 ≠ (run_optimized_analysis setupEmptyDB).1 := by
  decide

/-- Claim C8, amended: the missing-schema failure is surfaced distinctly at
the query layer (`cursor.execute` raises an operational error rather than
producing an empty result) and in the console output (an error message
rather than a printed empty ranking), but `run_optimized_analysis` catches
the exception, so its return value is `None` in the failure case just as in
the empty-table case: the caller can see the distinction only on the
console, not in the returned value. -/
theorem c8_error_on_console_only :
    (∀ db : DBState, "Log_Entries" ∉ db.tables →
      executeQuery db = Except.error "no such table: Log_Entries" ∧
      (run_optimized_analysis db).1 =
        ConsoleReport.errorMessage
          "Error executing analysis query: no such table: Log_Entries. Ensure the database is loaded." ∧
      (run_optimized_analysis db).2 = none) ∧
    (∀ db : DBState, "Log_Entries" ∈ db.tables → db.rows = [] →
      executeQuery db = Except.ok [] ∧
      (run_optimized_analysis db).1 = ConsoleReport.results [] ∧
      (run_optimized_analysis db).2 = none) := by
  constructor
  · intro db hmem
    have hq : executeQuery db = Except.error "no such table: Log_Entries" := by
      unfold executeQuery
      rw [if_neg hmem]
    refine ⟨hq, ?_, ?_⟩ <;> unfold run_optimized_analysis <;> rw [hq]
    all_goals rfl
  · intro db hmem hrows
    have hq : executeQuery db = Except.ok [] := by
      unfold executeQuery
      rw [if_pos hmem, hrows]
      rfl
    refine ⟨hq, ?_, ?_⟩ <;> unfold run_optimized_analysis <;> rw [hq]

theorem c8_error_on_console_only_witness :
    executeQuery emptyDB = Except.error "no such table: Log_Entries" ∧
    executeQuery setupEmptyDB = Except.ok [] :=
  ⟨((c8_error_on_console_only.1 emptyDB) (by decide)).1,
    ((c8_error_on_console_only.2 setupEmptyDB) (by decide) rfl).1⟩

/-- Claim C9: every record the parser produces has a non-negative status
code, because the status group matches only decimal digit sequences. -/
theorem c9_status_nonneg (s : String) (r : ParsedRecord)
    (h : parse_log_line s = some r) : 0 ≤ r.statusCode := by
  obtain ⟨g1, g2, g3, g4, g5, hm, hr⟩ := parse_log_line_some_inv h
  rw [hr]
  exact Int.natCast_nonneg _

theorem c9_status_nonneg_witness : (0 : Int) ≤ exampleRecord.statusCode :=
  c9_status_nonneg exampleLine exampleRecord (by decide)

/-- Claim C10: the parser is total — on every input string it returns either
a record or nothing — and whenever the pattern matches, the captured status
group is a nonempty string of decimal digits, so the integer conversion
`int(...)` applied to it cannot fail. -/
theorem c10_parser_total :
    (∀ s : String, parse_log_line s = none ∨ ∃ r, parse_log_line s = some r) ∧
    (∀ l g1 g2 g3 g4 g5 : List Char,
      LOG_PATTERN_match l = some (g1, g2, g3, g4, g5) →
      g5 ≠ [] ∧ ∀ c ∈ g5, c.isDigit = true) := by
  constructor
  · intro s
    cases hp : parse_log_line s with
    | none => exact Or.inl rfl
    | some r => exact Or.inr ⟨r, rfl⟩
  · intro l g1 g2 g3 g4 g5 h
    obtain ⟨d1, d2, proto, size, trail, hw, _, _⟩ := LOG_PATTERN_match_inv h
    exact hw.2.2.2.2.2.2.2.1

theorem c10_parser_total_witness :
    "404".data ≠ [] ∧ ∀ c ∈ "404".data, c.isDigit = true :=
  c10_parser_total.2 exampleLine.data "10.0.0.1".data
    "01/Jan/2024:00:00:00 +0000".data "POST".data "/api/data".data
    "404".data (by decide)

end LogAnalyzer
